import Mathlib

/-!
Shallow embedding of the pu_simulator motion-capture pipeline.

The repository holds near-duplicate iterations of one design. The two
variants embedded in `src/main.js` share all control flow and differ only
in the oversupply branch of the normalization step: variant A truncates to
the last 52 samples (`accelData.slice(-TARGET_SAMPLES)`), variant B
downsamples with a uniform stride (`step = accelData.length / 52;
index = Math.floor(i * step)`). The variants in `src/unnamed/part_000`
and `src/unnamed/part_001` use the truncate branch; `src/unnamed/part_002`
is an earlier iteration with a capped ring buffer and no inference.

JavaScript numbers are IEEE binary64 doubles. Sensor readings are
carried through unchanged, so they are modelled as exact rationals; the
downsample index computation, however, is sensitive to rounding
(`step = accelData.length / 52` and `i * step` each round once), so it
is modelled by `fl`, round-to-nearest-even onto the binary64 grid of
53-bit significands, defined on rationals. Every value the driver
rounds is either 0 (exact) or lies in (1, 2^32), far inside the normal
range and far below overflow, where `fl` agrees exactly with binary64
arithmetic. Missing axis values (null or undefined in JS) are modelled
by `Option`. DOM semantics used by the code: `addEventListener` with an
identical (type, callback, capture) triple is a no-op, and
`removeEventListener` removes the registration when present.
-/

/-- One 3-axis sample as stored by the main.js handler: `x || 0` has
already replaced an absent axis by 0, so all fields are plain numbers. -/
structure Reading where
  x : ℚ
  y : ℚ
  z : ℚ
deriving DecidableEq, Repr

/-- The zero sample `{ x: 0, y: 0, z: 0 }` pushed by the padding loop. -/
def zeroReading : Reading := ⟨0, 0, 0⟩

/-- `const TARGET_SAMPLES = 52` in every variant. -/
def TARGET_SAMPLES : ℕ := 52

/-- `const COLLECTION_TIME = 2000` milliseconds. -/
def COLLECTION_TIME : ℕ := 2000

/-- Floor of the base-2 logarithm, computed by structural recursion on a
fuel argument so that concrete values reduce inside the kernel. -/
def natLog2Fuel : ℕ → ℕ → ℕ
  | 0, _ => 0
  | fuel + 1, n => if 2 ≤ n then natLog2Fuel fuel (n / 2) + 1 else 0

/-- Floor of the base-2 logarithm of a positive natural number. -/
def natLog2Floor (n : ℕ) : ℕ := natLog2Fuel n n

/-- Binary64 scale of a rational `q ≥ 1`: dividing `q` by
`2 ^ flExp q` places it in the 53-bit significand window
`[2^52, 2^53)`. -/
def flExp (q : ℚ) : ℤ := (natLog2Floor ⌊q⌋₊ : ℤ) - 52

/-- Round a rational to the nearest integer, ties to even. -/
def flRoundInt (m : ℚ) : ℤ :=
  if m - ⌊m⌋ < 1 / 2 then ⌊m⌋
  else if 1 / 2 < m - ⌊m⌋ then ⌊m⌋ + 1
  else if ⌊m⌋ % 2 = 0 then ⌊m⌋ else ⌊m⌋ + 1

/-- Round-to-nearest-even onto the binary64 grid: the result of one
JS floating-point operation whose exact value is `q`. For `q ≥ 1` this
is exactly IEEE binary64 rounding (no value reached here comes near
the overflow threshold); values below 1 are returned unchanged — the
driver only ever rounds 0, which is exact, and values above 1. -/
def fl (q : ℚ) : ℚ :=
  if q < 1 then q else (flRoundInt (q / 2 ^ flExp q) : ℚ) * 2 ^ flExp q

/-- `const step = accelData.length / TARGET_SAMPLES` of main.js
variant B, as computed in double precision: the array length converts
to a double exactly and the division rounds once. -/
def jsStep (L : ℕ) : ℚ := fl ((L : ℚ) / (TARGET_SAMPLES : ℚ))

/-- `const index = Math.floor(i * step)` of main.js variant B, as
computed in double precision: the loop counter `i < 52` is exact, the
multiplication rounds once, and `Math.floor` of a double is exact. -/
def jsIndex (L i : ℕ) : ℕ := (⌊fl ((i : ℚ) * jsStep L)⌋).toNat

/-- The downsample loop of main.js variant B: for each of the 52 slots,
pick `accelData[Math.floor(i * step)]`. The indexing is modelled with
`getD`; the computed index is proved to be in bounds below, so the
default is never used. -/
def downsample (l : List Reading) : List Reading :=
  (List.range TARGET_SAMPLES).map fun i => l.getD (jsIndex l.length i) zeroReading

/-- Normalization in main.js variant A (also part_000 and part_001):
zero-pad when short, keep the last 52 samples (`slice(-TARGET_SAMPLES)`)
when oversupplied, otherwise leave the buffer unchanged. -/
def normalizeTrunc (l : List Reading) : List Reading :=
  if l.length < TARGET_SAMPLES then
    l ++ List.replicate (TARGET_SAMPLES - l.length) zeroReading
  else if l.length > TARGET_SAMPLES then
    l.drop (l.length - TARGET_SAMPLES)
  else
    l

/-- Normalization in main.js variant B: zero-pad when short, uniform
stride downsample when oversupplied, otherwise leave the buffer
unchanged. -/
def normalizeDown (l : List Reading) : List Reading :=
  if l.length < TARGET_SAMPLES then
    l ++ List.replicate (TARGET_SAMPLES - l.length) zeroReading
  else if l.length > TARGET_SAMPLES then
    downsample l
  else
    l

/-- A devicemotion event: each axis of `accelerationIncludingGravity` may
be absent (null or undefined) on some devices. -/
structure MotionEvent where
  x : Option ℚ
  y : Option ℚ
  z : Option ℚ
deriving DecidableEq, Repr

/-- The sample built by the main.js handler: `x || 0` replaces an absent
axis value by 0 (for an actual number it returns the number; the JS
coercion also sends 0 to 0, which agrees with `getD`). -/
def readingOfEvent (e : MotionEvent) : Reading :=
  ⟨e.x.getD 0, e.y.getD 0, e.z.getD 0⟩

/-- `handleMotionEvent` of main.js: push the defaulted sample onto the
end of `accelData`. -/
def handleMotionEvent (e : MotionEvent) (buf : List Reading) : List Reading :=
  buf ++ [readingOfEvent e]

/-- A sample as stored by the part_000 handler: the destructured axis
values are pushed as-is, so an absent axis stays absent in the buffer. -/
structure RawReading where
  x : Option ℚ
  y : Option ℚ
  z : Option ℚ
deriving DecidableEq, Repr

/-- `handleMotionEvent` of part_000: `accelData.push({ x, y, z })` with
no defaulting of absent values. -/
def handleMotionEventRaw (e : MotionEvent) (buf : List RawReading) : List RawReading :=
  buf ++ [⟨e.x, e.y, e.z⟩]

/-- `const SAMPLE_RATE = 50` in part_002. -/
def SAMPLE_RATE : ℕ := 50

/-- `const BUFFER_LENGTH_SEC = 2` in part_002. -/
def BUFFER_LENGTH_SEC : ℕ := 2

/-- `const MAX_SAMPLES = SAMPLE_RATE * BUFFER_LENGTH_SEC` in part_002. -/
def MAX_SAMPLES : ℕ := SAMPLE_RATE * BUFFER_LENGTH_SEC

/-- A sample as stored by the part_002 handler: raw axis values plus the
`performance.now()` timestamp. -/
structure TimedReading where
  x : Option ℚ
  y : Option ℚ
  z : Option ℚ
  t : ℚ
deriving DecidableEq, Repr

/-- `handleMotionEvent` of part_002: push the raw sample, then
`if (accelData.length > MAX_SAMPLES) accelData.shift()` drops the oldest
entry, keeping the buffer at most `MAX_SAMPLES` long. -/
def handleMotionEventRing (e : MotionEvent) (t : ℚ) (buf : List TimedReading) :
    List TimedReading :=
  let b := buf ++ [⟨e.x, e.y, e.z, t⟩]
  if MAX_SAMPLES < b.length then b.tail else b

/-- Mutable state of the main.js driver: the `continueLoop` flag, the
devicemotion listener registration count (0 or 1 under DOM semantics),
the `accelData` buffer, the number of pending `setTimeout` callbacks of
`stopCollectingData`, and the number of suspended `stopCollectingData`
frames awaiting `runInference`. -/
structure SysState where
  continueLoop : Bool
  listenerCount : ℕ
  accelData : List Reading
  pendingTimers : ℕ
  inFlight : ℕ
deriving DecidableEq, Repr

/-- `window.addEventListener(..., handleMotionEvent, true)`: registering
an identical (type, callback, capture) triple twice is a DOM no-op. -/
def addMotionListener (s : SysState) : SysState :=
  if s.listenerCount = 0 then { s with listenerCount := 1 } else s

/-- `window.removeEventListener(..., handleMotionEvent, true)`: removes
the registration when present, otherwise a no-op. -/
def removeMotionListener (s : SysState) : SysState :=
  { s with listenerCount := 0 }

/-- `startCollectingData()` of main.js: bail out when `continueLoop` is
false; otherwise reset `accelData`, attach the listener and schedule one
`stopCollectingData` timeout. -/
def startCollectingData (s : SysState) : SysState :=
  if s.continueLoop = false then s
  else addMotionListener { s with accelData := [], pendingTimers := s.pendingTimers + 1 }

/-- `startContinuousLoop()` of main.js: set `continueLoop = true` and
call `startCollectingData()`. -/
def startContinuousLoop (s : SysState) : SysState :=
  startCollectingData { s with continueLoop := true }

/-- `stopContinuousLoop()` of main.js: set `continueLoop = false` and
remove the devicemotion listener. -/
def stopContinuousLoop (s : SysState) : SysState :=
  removeMotionListener { s with continueLoop := false }

/-- Delivery of a devicemotion event: the handler runs only while the
listener is registered, and appends the defaulted sample. -/
def deliverMotion (e : MotionEvent) (s : SysState) : SysState :=
  if s.listenerCount = 0 then s
  else { s with accelData := handleMotionEvent e s.accelData }

/-- Outcome of one inference attempt: the model was never loaded, the
predict call succeeded, or the predict call threw an opaque error. -/
inductive InferOutcome where
  | notLoaded
  | ok
  | errThrown
deriving DecidableEq, Repr

/-- The synchronous part of `stopCollectingData()` run when one of the
scheduled timeouts fires: remove the listener, normalize `accelData`
(main.js variant A branch; variant B has identical control flow), and
suspend awaiting `runInference`. -/
def stopCollectBegin (s : SysState) : SysState :=
  if s.pendingTimers = 0 then s
  else
    { s with
      pendingTimers := s.pendingTimers - 1
      listenerCount := 0
      accelData := normalizeTrunc s.accelData
      inFlight := s.inFlight + 1 }

/-- Resumption of `stopCollectingData()` after `await runInference()` in
main.js: `runInference` returns normally for every outcome (a missing
model is an early return, a thrown predict error is caught by the
try/catch), so regardless of the outcome the driver re-arms whenever
`continueLoop` still holds. -/
def stopCollectResume (_o : InferOutcome) (s : SysState) : SysState :=
  if s.inFlight = 0 then s
  else
    let s' := { s with inFlight := s.inFlight - 1 }
    if s'.continueLoop = true then startCollectingData s' else s'

/-- Resumption in part_000, where `stopCollectingData` chains
`runInference().then(function () \x7b if (continueLoop) startCollectingData(); \x7d)`
and `runInference` has no try/catch: a missing model still returns
normally and the then-callback re-arms, but a thrown predict error
rejects the promise, the then-callback is skipped, and the error escapes
as an unhandled rejection. -/
def part000Resume (o : InferOutcome) (s : SysState) : SysState :=
  if s.inFlight = 0 then s
  else
    let s' := { s with inFlight := s.inFlight - 1 }
    match o with
    | .errThrown => s'
    | _ => if s'.continueLoop = true then startCollectingData s' else s'

/-- Events dispatched on the single JS thread. -/
inductive Ev where
  | start
  | stop
  | motion (e : MotionEvent)
  | timer
  | inferDone (o : InferOutcome)
deriving DecidableEq, Repr

/-- One dispatch step of the main.js driver. -/
def stepEv (s : SysState) : Ev → SysState
  | .start => startContinuousLoop s
  | .stop => stopContinuousLoop s
  | .motion e => deliverMotion e s
  | .timer => stopCollectBegin s
  | .inferDone o => stopCollectResume o s

/-- Run a sequence of dispatched events. -/
def runEvs (s : SysState) (evs : List Ev) : SysState :=
  evs.foldl stepEv s

/-- Initial state of main.js: `continueLoop = true`, no listener, empty
buffer, no timers, no inference in flight. -/
def initState : SysState :=
  { continueLoop := true, listenerCount := 0, accelData := [], pendingTimers := 0, inFlight := 0 }

/-- Spec scenario input: 100 sequential readings `(i, i, i)`. -/
def seqInput : List Reading :=
  (List.range 100).map fun (i : ℕ) => ⟨(i : ℚ), (i : ℚ), (i : ℚ)⟩

/-- Spec scenario input: 40 zero readings. -/
def input40 : List Reading :=
  List.replicate 40 zeroReading

/-- A 60-reading sequential input `(i, i, i)`: a length at which the
double-precision downsample index and the exact real-arithmetic index
disagree. -/
def seqInput60 : List Reading :=
  (List.range 60).map fun (i : ℕ) => ⟨(i : ℚ), (i : ℚ), (i : ℚ)⟩

/-- A concrete event with all axes present. -/
def eventA : MotionEvent := ⟨some 1, some 2, some 3⟩

/-- A concrete event whose x axis is absent. -/
def absentEvent : MotionEvent := ⟨none, some 1, some 2⟩

/-- A concrete state in the middle of an inference step of cycle k:
loop active, listener detached, one suspended frame. -/
def inferringState : SysState :=
  { continueLoop := true, listenerCount := 0, accelData := [], pendingTimers := 0, inFlight := 1 }

/-- A part_002 buffer already at capacity, with a marked oldest entry. -/
def fullRingBuf : List TimedReading :=
  ⟨some 9, some 9, some 9, 0⟩ :: List.replicate 99 ⟨some 0, some 0, some 0, 0⟩

theorem normalizeTrunc_length (l : List Reading) :
    (normalizeTrunc l).length = TARGET_SAMPLES := by
  unfold normalizeTrunc
  split
  · simp only [List.length_append, List.length_replicate]
    omega
  · split
    · simp only [List.length_drop]
      omega
    · omega

theorem normalizeDown_length (l : List Reading) :
    (normalizeDown l).length = TARGET_SAMPLES := by
  unfold normalizeDown downsample
  split
  · simp only [List.length_append, List.length_replicate]
    omega
  · split
    · simp
    · omega

theorem normalizeTrunc_of_length_eq (l : List Reading) (h : l.length = TARGET_SAMPLES) :
    normalizeTrunc l = l := by
  unfold normalizeTrunc
  rw [if_neg (by omega), if_neg (by omega)]

theorem normalizeDown_of_length_eq (l : List Reading) (h : l.length = TARGET_SAMPLES) :
    normalizeDown l = l := by
  unfold normalizeDown
  rw [if_neg (by omega), if_neg (by omega)]

theorem normalizeTrunc_of_lt (l : List Reading) (h : l.length < TARGET_SAMPLES) :
    normalizeTrunc l = l ++ List.replicate (TARGET_SAMPLES - l.length) zeroReading := by
  unfold normalizeTrunc
  rw [if_pos h]

theorem normalizeDown_of_lt (l : List Reading) (h : l.length < TARGET_SAMPLES) :
    normalizeDown l = l ++ List.replicate (TARGET_SAMPLES - l.length) zeroReading := by
  unfold normalizeDown
  rw [if_pos h]

theorem normalizeDown_of_gt (l : List Reading) (h : TARGET_SAMPLES < l.length) :
    normalizeDown l = downsample l := by
  unfold normalizeDown
  rw [if_neg (by omega), if_pos h]

theorem natLog2Fuel_spec : ∀ fuel n : ℕ, 1 ≤ n → n ≤ fuel →
    2 ^ natLog2Fuel fuel n ≤ n ∧ n < 2 ^ (natLog2Fuel fuel n + 1) := by
  intro fuel
  induction fuel with
  | zero => intro n h1 h2; omega
  | succ fuel ih =>
    intro n h1 h2
    simp only [natLog2Fuel]
    split
    · next h2n =>
      have hd1 : 1 ≤ n / 2 := by omega
      have hd2 : n / 2 ≤ fuel := by omega
      have hlow := (ih (n / 2) hd1 hd2).1
      have hhigh := (ih (n / 2) hd1 hd2).2
      constructor
      · rw [pow_succ]
        omega
      · rw [pow_succ]
        omega
    · next h2n =>
      have hn1 : n = 1 := by omega
      subst hn1
      norm_num

theorem natLog2Floor_spec (n : ℕ) (h : 1 ≤ n) :
    2 ^ natLog2Floor n ≤ n ∧ n < 2 ^ (natLog2Floor n + 1) :=
  natLog2Fuel_spec n n h le_rfl

theorem flRoundInt_ge (m : ℚ) : m - 1 / 2 ≤ (flRoundInt m : ℚ) := by
  have h0 : ((⌊m⌋ : ℤ) : ℚ) ≤ m := Int.floor_le m
  have h1 : m < ⌊m⌋ + 1 := Int.lt_floor_add_one m
  unfold flRoundInt
  split_ifs <;> push_cast <;> linarith

theorem flRoundInt_le (m : ℚ) : (flRoundInt m : ℚ) ≤ m + 1 / 2 := by
  have h0 : ((⌊m⌋ : ℤ) : ℚ) ≤ m := Int.floor_le m
  have h1 : m < ⌊m⌋ + 1 := Int.lt_floor_add_one m
  unfold flRoundInt
  split_ifs <;> push_cast <;> linarith

theorem fl_bounds (q : ℚ) (hq : 1 ≤ q) :
    q - q / 2 ^ 53 ≤ fl q ∧ fl q ≤ q + q / 2 ^ 53 := by
  have hq0 : (0 : ℚ) < q := lt_of_lt_of_le one_pos hq
  have hfl1 : 1 ≤ ⌊q⌋₊ := Nat.le_floor (by exact_mod_cast hq)
  have hspec := natLog2Floor_spec ⌊q⌋₊ hfl1
  have h2E : (2 : ℚ) ^ natLog2Floor ⌊q⌋₊ ≤ q := by
    calc (2 : ℚ) ^ natLog2Floor ⌊q⌋₊
        = ((2 ^ natLog2Floor ⌊q⌋₊ : ℕ) : ℚ) := by push_cast; ring
    _ ≤ (⌊q⌋₊ : ℚ) := by exact_mod_cast hspec.1
    _ ≤ q := Nat.floor_le hq0.le
  have hscale : (0 : ℚ) < (2 : ℚ) ^ flExp q := zpow_pos (by norm_num) _
  have hscale_le : (2 : ℚ) ^ flExp q ≤ q / 2 ^ 52 := by
    have hx : flExp q = (natLog2Floor ⌊q⌋₊ : ℤ) - ((52 : ℕ) : ℤ) := rfl
    rw [hx, zpow_sub₀ (by norm_num : (2 : ℚ) ≠ 0), zpow_natCast, zpow_natCast]
    exact (div_le_div_iff_of_pos_right (by norm_num)).mpr h2E
  unfold fl
  rw [if_neg (not_lt.mpr hq)]
  have hlb := flRoundInt_ge (q / 2 ^ flExp q)
  have hub := flRoundInt_le (q / 2 ^ flExp q)
  have hqm : q / 2 ^ flExp q * 2 ^ flExp q = q := div_mul_cancel₀ q hscale.ne'
  constructor
  · have h1 : (q / 2 ^ flExp q - 1 / 2) * 2 ^ flExp q ≤
        (flRoundInt (q / 2 ^ flExp q) : ℚ) * 2 ^ flExp q :=
      mul_le_mul_of_nonneg_right hlb hscale.le
    have h2 : (q / 2 ^ flExp q - 1 / 2) * 2 ^ flExp q = q - 2 ^ flExp q / 2 := by
      rw [sub_mul, hqm]
      ring
    linarith [hscale_le]
  · have h1 : (flRoundInt (q / 2 ^ flExp q) : ℚ) * 2 ^ flExp q ≤
        (q / 2 ^ flExp q + 1 / 2) * 2 ^ flExp q :=
      mul_le_mul_of_nonneg_right hub hscale.le
    have h2 : (q / 2 ^ flExp q + 1 / 2) * 2 ^ flExp q = q + 2 ^ flExp q / 2 := by
      rw [add_mul, hqm]
      ring
    linarith [hscale_le]

theorem downsample_getD (l : List Reading) (i : ℕ) (hi : i < TARGET_SAMPLES) :
    (downsample l).getD i zeroReading = l.getD (jsIndex l.length i) zeroReading := by
  unfold downsample
  rw [List.getD_eq_getElem?_getD, List.getElem?_map, List.getElem?_range hi]
  simp

theorem jsIndex_zero (L : ℕ) : jsIndex L 0 = 0 := by
  unfold jsIndex
  norm_num [fl]

theorem jsStep_bounds (L : ℕ) (hL : 52 < L) :
    (L : ℚ) / 52 - ((L : ℚ) / 52) / 2 ^ 53 ≤ jsStep L ∧
    jsStep L ≤ (L : ℚ) / 52 + ((L : ℚ) / 52) / 2 ^ 53 := by
  have hts : ((TARGET_SAMPLES : ℕ) : ℚ) = 52 := by norm_num [TARGET_SAMPLES]
  have hL53 : (53 : ℚ) ≤ (L : ℚ) := by exact_mod_cast hL
  have h1 : (1 : ℚ) ≤ (L : ℚ) / 52 := by
    rw [le_div_iff₀ (by norm_num)]
    linarith
  unfold jsStep
  rw [hts]
  exact fl_bounds _ h1

theorem jsStep_one_le (L : ℕ) (hL : 52 < L) : 1 ≤ jsStep L := by
  have hb := (jsStep_bounds L hL).1
  have hL53 : (53 : ℚ) ≤ (L : ℚ) := by exact_mod_cast hL
  have hd : (53 : ℚ) / 52 ≤ (L : ℚ) / 52 := by linarith
  have hc : (1 : ℚ) ≤ 53 / 52 * (1 - 1 / 2 ^ 53) := by norm_num
  linarith

theorem jsStep_lb53 (L : ℕ) (hL : 52 < L) :
    (53 : ℚ) / 52 * (1 - 1 / 2 ^ 53) ≤ jsStep L := by
  have hb := (jsStep_bounds L hL).1
  have hL53 : (53 : ℚ) ≤ (L : ℚ) := by exact_mod_cast hL
  have hd : (53 : ℚ) / 52 ≤ (L : ℚ) / 52 := by linarith
  linarith

theorem jsIndex_lt (L i : ℕ) (hL : TARGET_SAMPLES < L) (hi : i < TARGET_SAMPLES) :
    jsIndex L i < L := by
  have hL52 : 52 < L := by simpa [TARGET_SAMPLES] using hL
  rcases Nat.eq_zero_or_pos i with rfl | hip
  · rw [jsIndex_zero]
    omega
  · have hs1 := jsStep_one_le L hL52
    have hsb := jsStep_bounds L hL52
    have hsp : (0 : ℚ) < jsStep L := by linarith
    have hi1 : (1 : ℚ) ≤ (i : ℚ) := by exact_mod_cast hip
    have hi51 : (i : ℚ) ≤ 51 := by
      have : i ≤ 51 := by simp only [TARGET_SAMPLES] at hi; omega
      exact_mod_cast this
    have hx1 : (1 : ℚ) ≤ (i : ℚ) * jsStep L := by nlinarith
    have hfb := fl_bounds ((i : ℚ) * jsStep L) hx1
    have hLpos : (0 : ℚ) < (L : ℚ) := by
      have : 0 < L := by omega
      exact_mod_cast this
    have hs_ub : jsStep L ≤ (L : ℚ) / 52 * (1 + 1 / 2 ^ 53) := by
      have heq : (L : ℚ) / 52 + ((L : ℚ) / 52) / 2 ^ 53 =
          (L : ℚ) / 52 * (1 + 1 / 2 ^ 53) := by ring
      linarith [hsb.2]
    have hx_ub : fl ((i : ℚ) * jsStep L) < (L : ℚ) := by
      have h1 : fl ((i : ℚ) * jsStep L) ≤ (i : ℚ) * jsStep L * (1 + 1 / 2 ^ 53) := by
        have heq : (i : ℚ) * jsStep L + ((i : ℚ) * jsStep L) / 2 ^ 53 =
            (i : ℚ) * jsStep L * (1 + 1 / 2 ^ 53) := by ring
        linarith [hfb.2]
      have h2 : (i : ℚ) * jsStep L ≤ 51 * jsStep L :=
        mul_le_mul_of_nonneg_right hi51 hsp.le
      have h3 : (i : ℚ) * jsStep L * (1 + 1 / 2 ^ 53) ≤
          51 * ((L : ℚ) / 52 * (1 + 1 / 2 ^ 53)) * (1 + 1 / 2 ^ 53) := by
        apply mul_le_mul_of_nonneg_right _ (by norm_num)
        linarith [hs_ub]
      have h5 : 51 * ((L : ℚ) / 52 * (1 + 1 / 2 ^ 53)) * (1 + 1 / 2 ^ 53) =
          (L : ℚ) * (51 / 52 * (1 + 1 / 2 ^ 53) ^ 2) := by ring
      have h6 : (L : ℚ) * (51 / 52 * (1 + 1 / 2 ^ 53) ^ 2) < (L : ℚ) * 1 := by
        apply mul_lt_mul_of_pos_left _ hLpos
        norm_num
      have h7 : (L : ℚ) * 1 = (L : ℚ) := mul_one _
      linarith
    unfold jsIndex
    have hfloor : ⌊fl ((i : ℚ) * jsStep L)⌋ < (L : ℤ) := by
      rw [Int.floor_lt]
      exact_mod_cast hx_ub
    omega

theorem jsIndex_succ_gt (L i : ℕ) (hL : TARGET_SAMPLES < L) (hi : i + 1 < TARGET_SAMPLES) :
    jsIndex L i < jsIndex L (i + 1) := by
  have hL52 : 52 < L := by simpa [TARGET_SAMPLES] using hL
  have hi50 : i ≤ 50 := by simp only [TARGET_SAMPLES] at hi; omega
  have hs1 := jsStep_one_le L hL52
  have hsp : (0 : ℚ) < jsStep L := by linarith
  have hstep53 := jsStep_lb53 L hL52
  rcases Nat.eq_zero_or_pos i with rfl | hip
  · rw [jsIndex_zero]
    unfold jsIndex
    have hx : ((0 + 1 : ℕ) : ℚ) * jsStep L = jsStep L := by push_cast; ring
    rw [hx]
    have hfb := fl_bounds (jsStep L) hs1
    have hc : (1 : ℚ) ≤ 53 / 52 * (1 - 1 / 2 ^ 53) * (1 - 1 / 2 ^ 53) := by norm_num
    have h1 : (1 : ℚ) ≤ fl (jsStep L) := by linarith [hfb.1]
    have hfloor : (1 : ℤ) ≤ ⌊fl (jsStep L)⌋ := by
      rw [Int.le_floor]
      exact_mod_cast h1
    omega
  · have hi1 : (1 : ℚ) ≤ (i : ℚ) := by exact_mod_cast hip
    have hx1 : (1 : ℚ) ≤ (i : ℚ) * jsStep L := by nlinarith
    have hcast : ((i + 1 : ℕ) : ℚ) * jsStep L = (i : ℚ) * jsStep L + jsStep L := by
      push_cast
      ring
    have hx1' : (1 : ℚ) ≤ ((i + 1 : ℕ) : ℚ) * jsStep L := by
      rw [hcast]
      linarith
    have hfb := fl_bounds ((i : ℚ) * jsStep L) hx1
    have hfb' := fl_bounds (((i + 1 : ℕ) : ℚ) * jsStep L) hx1'
    have hi50q : (i : ℚ) ≤ 50 := by exact_mod_cast hi50
    have hxis : (i : ℚ) * jsStep L ≤ 50 * jsStep L :=
      mul_le_mul_of_nonneg_right hi50q hsp.le
    have hc : (1 : ℚ) < 53 / 52 * (1 - 1 / 2 ^ 53) * (1 - 101 / 2 ^ 53) := by norm_num
    have hgap : fl ((i : ℚ) * jsStep L) + 1 < fl (((i + 1 : ℕ) : ℚ) * jsStep L) := by
      linarith [hfb.2, hfb'.1, hcast, hxis, hstep53, hc]
    have h0 : (⌊fl ((i : ℚ) * jsStep L)⌋ : ℚ) ≤ fl ((i : ℚ) * jsStep L) := Int.floor_le _
    have hfloor : ⌊fl ((i : ℚ) * jsStep L)⌋ + 1 ≤ ⌊fl (((i + 1 : ℕ) : ℚ) * jsStep L)⌋ := by
      rw [Int.le_floor]
      push_cast at hgap ⊢
      linarith
    have hnn : (0 : ℤ) ≤ ⌊fl ((i : ℚ) * jsStep L)⌋ := by
      rw [Int.le_floor]
      push_cast
      linarith [hfb.1, hx1]
    unfold jsIndex
    omega

theorem jsIndex_strictMonoOn (L : ℕ) (hL : TARGET_SAMPLES < L) :
    ∀ i j : ℕ, i < j → j < TARGET_SAMPLES → jsIndex L i < jsIndex L j := by
  intro i j
  induction j with
  | zero => intro h _; omega
  | succ j ih =>
    intro hij hj
    have hj' : j < TARGET_SAMPLES := by omega
    rcases Nat.lt_or_ge i j with h | h
    · exact lt_trans (ih h hj') (jsIndex_succ_gt L j hL hj)
    · have hieq : i = j := by omega
      subst hieq
      exact jsIndex_succ_gt L i hL hj

theorem seqInput_length : seqInput.length = 100 := by
  simp [seqInput]

/-- C1: for every input sequence, the normalization performed when the
collection timer fires (pad when short, truncate-tail in variant A or
uniform-stride downsample in variant B when oversupplied, identity at
exactly 52) returns a sequence of exactly TARGET_SAMPLES = 52 samples. -/
theorem claim1_normalize_length : ∀ l : List Reading,
    (normalizeTrunc l).length = TARGET_SAMPLES ∧
    (normalizeDown l).length = TARGET_SAMPLES :=
  fun l => ⟨normalizeTrunc_length l, normalizeDown_length l⟩

/-- C9: normalization is idempotent for both policies, because a
sequence already of length 52 takes neither the pad branch nor the
oversupply branch and is returned unchanged. -/
theorem claim9_normalize_idempotent : ∀ l : List Reading,
    normalizeTrunc (normalizeTrunc l) = normalizeTrunc l ∧
    normalizeDown (normalizeDown l) = normalizeDown l :=
  fun l => ⟨normalizeTrunc_of_length_eq _ (normalizeTrunc_length l),
            normalizeDown_of_length_eq _ (normalizeDown_length l)⟩

/-- C7: under the pad policy, for every input shorter than 52 the first
L entries of the result equal the input in order and the remaining
52 - L entries are zero readings, filled strictly at the tail; for the
concrete 40-reading input the output has length 52 and its last 12
entries are zero readings. -/
theorem claim7_pad :
    (∀ l : List Reading, l.length < TARGET_SAMPLES →
      (normalizeTrunc l).take l.length = l ∧
      (normalizeTrunc l).drop l.length = List.replicate (TARGET_SAMPLES - l.length) zeroReading ∧
      (normalizeDown l).take l.length = l ∧
      (normalizeDown l).drop l.length = List.replicate (TARGET_SAMPLES - l.length) zeroReading) ∧
    (normalizeTrunc input40).length = TARGET_SAMPLES ∧
    (normalizeTrunc input40).drop 40 = List.replicate 12 zeroReading := by
  have hgen : ∀ l : List Reading, l.length < TARGET_SAMPLES →
      (normalizeTrunc l).take l.length = l ∧
      (normalizeTrunc l).drop l.length = List.replicate (TARGET_SAMPLES - l.length) zeroReading ∧
      (normalizeDown l).take l.length = l ∧
      (normalizeDown l).drop l.length = List.replicate (TARGET_SAMPLES - l.length) zeroReading := by
    intro l h
    rw [normalizeTrunc_of_lt l h, normalizeDown_of_lt l h]
    exact ⟨List.take_left _ _, List.drop_left _ _, List.take_left _ _, List.drop_left _ _⟩
  refine ⟨hgen, normalizeTrunc_length input40, ?_⟩
  have h40 : input40.length = 40 := by simp [input40]
  have h := (hgen input40 (by rw [h40]; norm_num [TARGET_SAMPLES])).2.1
  rw [h40] at h
  rw [h]
  norm_num [TARGET_SAMPLES]

/-- C7 witness: the padded 40-reading input keeps its first 40 entries. -/
theorem claim7_pad_witness :
    (normalizeTrunc input40).take input40.length = input40 :=
  (claim7_pad.1 input40 (by simp [input40, TARGET_SAMPLES])).1

theorem flEval60step : fl (60 / 52 : ℚ) = 5196461108504418 / 4503599627370496 := by
  have hf : ⌊(60 / 52 : ℚ)⌋₊ = 1 := by
    rw [Nat.floor_eq_iff] <;> norm_num
  have he : flExp (60 / 52 : ℚ) = -52 := by
    unfold flExp
    rw [hf]
    decide
  have hround : flRoundInt (67553994410557440 / 13 : ℚ) = 5196461108504418 := by
    have hfl : ⌊(67553994410557440 / 13 : ℚ)⌋ = 5196461108504418 := by
      rw [Int.floor_eq_iff]; norm_num
    unfold flRoundInt
    rw [hfl, if_pos (by norm_num)]
  unfold fl
  rw [if_neg (by norm_num), he,
    show (60 / 52 : ℚ) / 2 ^ (-52 : ℤ) = 67553994410557440 / 13 by norm_num, hround]
  norm_num

theorem flEval60prod :
    fl (33776997205278717 / 2251799813685248 : ℚ) = 8444249301319679 / 562949953421312 := by
  have hf : ⌊(33776997205278717 / 2251799813685248 : ℚ)⌋₊ = 14 := by
    rw [Nat.floor_eq_iff] <;> norm_num
  have he : flExp (33776997205278717 / 2251799813685248 : ℚ) = -49 := by
    unfold flExp
    rw [hf]
    decide
  have hround : flRoundInt (33776997205278717 / 4 : ℚ) = 8444249301319679 := by
    have hfl : ⌊(33776997205278717 / 4 : ℚ)⌋ = 8444249301319679 := by
      rw [Int.floor_eq_iff]; norm_num
    unfold flRoundInt
    rw [hfl, if_pos (by norm_num)]
  unfold fl
  rw [if_neg (by norm_num), he,
    show (33776997205278717 / 2251799813685248 : ℚ) / 2 ^ (-49 : ℤ) =
      33776997205278717 / 4 by norm_num, hround]
  norm_num

theorem flEval100step : fl (100 / 52 : ℚ) = 8660768514174031 / 4503599627370496 := by
  have hf : ⌊(100 / 52 : ℚ)⌋₊ = 1 := by
    rw [Nat.floor_eq_iff] <;> norm_num
  have he : flExp (100 / 52 : ℚ) = -52 := by
    unfold flExp
    rw [hf]
    decide
  have hround : flRoundInt (112589990684262400 / 13 : ℚ) = 8660768514174031 := by
    have hfl : ⌊(112589990684262400 / 13 : ℚ)⌋ = 8660768514174030 := by
      rw [Int.floor_eq_iff]; norm_num
    unfold flRoundInt
    rw [hfl, if_neg (by norm_num), if_pos (by norm_num)]
    norm_num
  unfold fl
  rw [if_neg (by norm_num), he,
    show (100 / 52 : ℚ) / 2 ^ (-52 : ℤ) = 112589990684262400 / 13 by norm_num, hround]
  norm_num

theorem flEval100prod1 :
    fl (8660768514174031 / 4503599627370496 : ℚ) = 8660768514174031 / 4503599627370496 := by
  have hf : ⌊(8660768514174031 / 4503599627370496 : ℚ)⌋₊ = 1 := by
    rw [Nat.floor_eq_iff] <;> norm_num
  have he : flExp (8660768514174031 / 4503599627370496 : ℚ) = -52 := by
    unfold flExp
    rw [hf]
    decide
  have hround : flRoundInt (8660768514174031 : ℚ) = 8660768514174031 := by
    have hfl : ⌊(8660768514174031 : ℚ)⌋ = 8660768514174031 := by
      rw [Int.floor_eq_iff]; norm_num
    unfold flRoundInt
    rw [hfl, if_pos (by norm_num)]
  unfold fl
  rw [if_neg (by norm_num), he,
    show (8660768514174031 / 4503599627370496 : ℚ) / 2 ^ (-52 : ℤ) =
      8660768514174031 by norm_num, hround]
  norm_num

theorem flEval100prod51 :
    fl (441699194222875581 / 4503599627370496 : ℚ) = 6901549909732431 / 70368744177664 := by
  have hf : ⌊(441699194222875581 / 4503599627370496 : ℚ)⌋₊ = 98 := by
    rw [Nat.floor_eq_iff] <;> norm_num
  have he : flExp (441699194222875581 / 4503599627370496 : ℚ) = -46 := by
    unfold flExp
    rw [hf]
    decide
  have hround : flRoundInt (441699194222875581 / 64 : ℚ) = 6901549909732431 := by
    have hfl : ⌊(441699194222875581 / 64 : ℚ)⌋ = 6901549909732430 := by
      rw [Int.floor_eq_iff]; norm_num
    unfold flRoundInt
    rw [hfl, if_neg (by norm_num), if_pos (by norm_num)]
    norm_num
  unfold fl
  rw [if_neg (by norm_num), he,
    show (441699194222875581 / 4503599627370496 : ℚ) / 2 ^ (-46 : ℤ) =
      441699194222875581 / 64 by norm_num, hround]
  norm_num

theorem jsStep60 : jsStep 60 = 5196461108504418 / 4503599627370496 := by
  unfold jsStep
  rw [show ((60 : ℕ) : ℚ) / ((TARGET_SAMPLES : ℕ) : ℚ) = 60 / 52 by
    norm_num [TARGET_SAMPLES], flEval60step]

theorem jsStep100 : jsStep 100 = 8660768514174031 / 4503599627370496 := by
  unfold jsStep
  rw [show ((100 : ℕ) : ℚ) / ((TARGET_SAMPLES : ℕ) : ℚ) = 100 / 52 by
    norm_num [TARGET_SAMPLES], flEval100step]

theorem jsIndex_60_13 : jsIndex 60 13 = 14 := by
  unfold jsIndex
  rw [jsStep60,
    show ((13 : ℕ) : ℚ) * (5196461108504418 / 4503599627370496) =
      33776997205278717 / 2251799813685248 by norm_num, flEval60prod,
    show ⌊(8444249301319679 / 562949953421312 : ℚ)⌋ = 14 by
      rw [Int.floor_eq_iff]; norm_num]
  rfl

theorem jsIndex_100_1 : jsIndex 100 1 = 1 := by
  unfold jsIndex
  rw [jsStep100,
    show ((1 : ℕ) : ℚ) * (8660768514174031 / 4503599627370496) =
      8660768514174031 / 4503599627370496 by norm_num, flEval100prod1,
    show ⌊(8660768514174031 / 4503599627370496 : ℚ)⌋ = 1 by
      rw [Int.floor_eq_iff]; norm_num]
  rfl

theorem jsIndex_100_51 : jsIndex 100 51 = 98 := by
  unfold jsIndex
  rw [jsStep100,
    show ((51 : ℕ) : ℚ) * (8660768514174031 / 4503599627370496) =
      441699194222875581 / 4503599627370496 by norm_num, flEval100prod51,
    show ⌊(6901549909732431 / 70368744177664 : ℚ)⌋ = 98 by
      rw [Int.floor_eq_iff]; norm_num]
  rfl

theorem seqInput60_length : seqInput60.length = 60 := by
  simp [seqInput60]

theorem seqInput60_getD (k : ℕ) (hk : k < 60) :
    seqInput60.getD k zeroReading = ⟨(k : ℚ), (k : ℚ), (k : ℚ)⟩ := by
  unfold seqInput60
  rw [List.getD_eq_getElem?_getD, List.getElem?_map, List.getElem?_range hk]
  simp

/-- C2 counterexample: at a 60-reading input the double-precision
downsample pick differs from the exact real-arithmetic index of the
claim. The program computes the step 60 / 52 rounded to a double, and
13 times that step rounds to 14.999999999999998, so
Math.floor gives index 14; exact real division gives
floor(13 * 60/52) = 15. Output slot 13 therefore holds input[14], not
input[floor(13 * L/52)] = input[15]. -/
theorem claim2_counterexample :
    (normalizeDown seqInput60).getD 13 zeroReading = ⟨14, 14, 14⟩ ∧
    seqInput60.getD
        ((⌊(13 : ℚ) * ((seqInput60.length : ℚ) / (TARGET_SAMPLES : ℚ))⌋).toNat)
        zeroReading = ⟨15, 15, 15⟩ ∧
    (⟨14, 14, 14⟩ : Reading) ≠ ⟨15, 15, 15⟩ := by
  have h60 : TARGET_SAMPLES < seqInput60.length := by
    rw [seqInput60_length]
    norm_num [TARGET_SAMPLES]
  refine ⟨?_, ?_, ?_⟩
  · rw [normalizeDown_of_gt _ h60, downsample_getD _ 13 (by norm_num [TARGET_SAMPLES]),
      seqInput60_length, jsIndex_60_13, seqInput60_getD 14 (by norm_num)]
    norm_num
  · have hidx : (⌊(13 : ℚ) * ((seqInput60.length : ℚ) / (TARGET_SAMPLES : ℚ))⌋).toNat = 15 := by
      rw [show (13 : ℚ) * ((seqInput60.length : ℚ) / (TARGET_SAMPLES : ℚ)) = 15 by
        rw [seqInput60_length]; norm_num [TARGET_SAMPLES]]
      rw [show ⌊(15 : ℚ)⌋ = 15 by rw [Int.floor_eq_iff]; norm_num]
      rfl
    rw [hidx, seqInput60_getD 15 (by norm_num)]
    norm_num
  · simp

/-- C2 amended: under the downsample policy the entry in output slot i
is input[Math.floor(i * step)], where step = L / 52 and the product
i * step are computed in double precision; slot 0 always holds
input[0], and for the concrete N = 52, L = 100 sequential input the
claimed slots hold: output[1] = input[1] and output[51] = input[98].
The double-precision index can differ from the exact real-arithmetic
floor(i * L/52) asserted by the original claim — see the
counterexample at L = 60, i = 13. -/
theorem claim2_downsample_stride :
    (∀ (l : List Reading) (i : ℕ), TARGET_SAMPLES < l.length → i < TARGET_SAMPLES →
      (normalizeDown l).getD i zeroReading = l.getD (jsIndex l.length i) zeroReading) ∧
    (∀ l : List Reading, TARGET_SAMPLES < l.length →
      (normalizeDown l).getD 0 zeroReading = l.getD 0 zeroReading) ∧
    (normalizeDown seqInput).getD 1 zeroReading = seqInput.getD 1 zeroReading ∧
    (normalizeDown seqInput).getD 51 zeroReading = seqInput.getD 98 zeroReading := by
  have hgen : ∀ (l : List Reading) (i : ℕ), TARGET_SAMPLES < l.length → i < TARGET_SAMPLES →
      (normalizeDown l).getD i zeroReading = l.getD (jsIndex l.length i) zeroReading := by
    intro l i hL hi
    rw [normalizeDown_of_gt l hL, downsample_getD l i hi]
  have hseq : TARGET_SAMPLES < seqInput.length := by
    rw [seqInput_length]; norm_num [TARGET_SAMPLES]
  refine ⟨hgen, fun l hL => ?_, ?_, ?_⟩
  · rw [hgen l 0 hL (by norm_num [TARGET_SAMPLES]), jsIndex_zero]
  · rw [hgen seqInput 1 hseq (by norm_num [TARGET_SAMPLES]), seqInput_length, jsIndex_100_1]
  · rw [hgen seqInput 51 hseq (by norm_num [TARGET_SAMPLES]), seqInput_length, jsIndex_100_51]

theorem downsample_sublist (l : List Reading) (hL : TARGET_SAMPLES < l.length) :
    (downsample l).Sublist l := by
  have hmono : StrictMono (fun ix : ℕ =>
      if ix < TARGET_SAMPLES then jsIndex l.length ix else l.length + ix - TARGET_SAMPLES) := by
    intro a b hab
    dsimp only
    split
    · split
      · next _ hb => exact jsIndex_strictMonoOn l.length hL a b hab hb
      · next ha _ =>
        have h1 : jsIndex l.length a < l.length := jsIndex_lt l.length a hL ha
        omega
    · split
      · omega
      · omega
  refine List.sublist_of_orderEmbedding_get?_eq (OrderEmbedding.ofStrictMono _ hmono) ?_
  intro ix
  rw [List.get?_eq_getElem?, List.get?_eq_getElem?]
  show (downsample l)[ix]? =
    l[if ix < TARGET_SAMPLES then jsIndex l.length ix else l.length + ix - TARGET_SAMPLES]?
  by_cases hix : ix < TARGET_SAMPLES
  · rw [if_pos hix]
    unfold downsample
    rw [List.getElem?_map, List.getElem?_range hix, Option.map_some',
      List.getElem?_eq_getElem (jsIndex_lt l.length ix hL hix),
      List.getD_eq_getElem l zeroReading (jsIndex_lt l.length ix hL hix)]
  · rw [if_neg hix]
    rw [List.getElem?_eq_none, List.getElem?_eq_none]
    · omega
    · unfold downsample
      simp only [List.length_map, List.length_range]
      omega

/-- C2 witness: slot 2 of the downsampled 100-reading input is the
input entry at the double-precision index the program computes. -/
theorem claim2_downsample_stride_witness :
    (normalizeDown seqInput).getD 2 zeroReading =
      seqInput.getD (jsIndex seqInput.length 2) zeroReading :=
  claim2_downsample_stride.1 seqInput 2
    (by rw [seqInput_length]; norm_num [TARGET_SAMPLES])
    (by norm_num [TARGET_SAMPLES])

/-- C10: in the downsample branch (taken only when L > 52) every index
the program computes — Math.floor(i * step) with the step and the
product evaluated in double precision — satisfies 0 ≤ index ≤ L - 1,
so accelData[index] is always in bounds; the 52 computed indices are
strictly increasing, making the output an order-preserving subsequence
of the input. -/
theorem claim10_downsample_safe :
    ∀ l : List Reading, TARGET_SAMPLES < l.length →
      (∀ i : ℕ, i < TARGET_SAMPLES → jsIndex l.length i < l.length) ∧
      (∀ i j : ℕ, i < j → j < TARGET_SAMPLES → jsIndex l.length i < jsIndex l.length j) ∧
      (normalizeDown l).Sublist l := by
  intro l hL
  refine ⟨fun i hi => jsIndex_lt l.length i hL hi,
    fun i j hij hj => jsIndex_strictMonoOn l.length hL i j hij hj, ?_⟩
  rw [normalizeDown_of_gt l hL]
  exact downsample_sublist l hL

/-- C10 witness: for the concrete 100-reading input, the index computed
for slot 5 is in bounds, slots 5 and 6 pick strictly increasing
indices, and the downsampled output is a subsequence. -/
theorem claim10_downsample_safe_witness :
    jsIndex seqInput.length 5 < seqInput.length ∧
    jsIndex seqInput.length 5 < jsIndex seqInput.length 6 ∧
    (normalizeDown seqInput).Sublist seqInput := by
  have h := claim10_downsample_safe seqInput
    (by rw [seqInput_length]; norm_num [TARGET_SAMPLES])
  exact ⟨h.1 5 (by norm_num [TARGET_SAMPLES]),
    h.2.1 5 6 (by norm_num) (by norm_num [TARGET_SAMPLES]), h.2.2⟩

theorem addMotionListener_listenerCount (s : SysState) (h : s.listenerCount ≤ 1) :
    (addMotionListener s).listenerCount = 1 := by
  unfold addMotionListener
  split
  · rfl
  · omega

theorem addMotionListener_pendingTimers (s : SysState) :
    (addMotionListener s).pendingTimers = s.pendingTimers := by
  unfold addMotionListener
  split
  · rfl
  · rfl

theorem stepEv_listener_le (s : SysState) (h : s.listenerCount ≤ 1) (ev : Ev) :
    (stepEv s ev).listenerCount ≤ 1 := by
  cases ev with
  | start =>
    show (startContinuousLoop s).listenerCount ≤ 1
    unfold startContinuousLoop startCollectingData
    split
    · exact h
    · exact le_of_eq (addMotionListener_listenerCount _ h)
  | stop => exact Nat.zero_le 1
  | motion e =>
    show (deliverMotion e s).listenerCount ≤ 1
    unfold deliverMotion
    split
    · exact h
    · exact h
  | timer =>
    show (stopCollectBegin s).listenerCount ≤ 1
    unfold stopCollectBegin
    split
    · exact h
    · exact Nat.zero_le 1
  | inferDone o =>
    show (stopCollectResume o s).listenerCount ≤ 1
    unfold stopCollectResume
    split
    · exact h
    · dsimp only
      split
      · unfold startCollectingData
        split
        · exact h
        · exact le_of_eq (addMotionListener_listenerCount _ h)
      · exact h

theorem runEvs_listener_le (evs : List Ev) : ∀ s : SysState, s.listenerCount ≤ 1 →
    (runEvs s evs).listenerCount ≤ 1 := by
  induction evs with
  | nil => intro s h; exact h
  | cons ev evs ih => intro s h; exact ih _ (stepEv_listener_le s h ev)

theorem startContinuousLoop_listener_eq_one (s : SysState) (h : s.listenerCount ≤ 1) :
    (startContinuousLoop s).listenerCount = 1 := by
  unfold startContinuousLoop startCollectingData
  split
  · next hfalse => exact absurd hfalse (by simp)
  · exact addMotionListener_listenerCount _ h

theorem runEvs_append_one (s : SysState) (evs : List Ev) (ev : Ev) :
    runEvs s (evs ++ [ev]) = stepEv (runEvs s evs) ev := by
  simp [runEvs, List.foldl_append]

/-- C5 counterexample: from the initial state, one start() arms a cycle
(one pending timer) and a delivered reading fills the buffer; invoking
start() again while Armed is neither rejected nor a no-op — it performs
a second buffer reset (the collected reading is wiped) and schedules a
second concurrent collection timer. -/
theorem claim5_counterexample :
    (runEvs initState [Ev.start, Ev.motion eventA]).pendingTimers = 1 ∧
    (runEvs initState [Ev.start, Ev.motion eventA]).accelData = [⟨1, 2, 3⟩] ∧
    (runEvs initState [Ev.start, Ev.motion eventA, Ev.start]).pendingTimers = 2 ∧
    (runEvs initState [Ev.start, Ev.motion eventA, Ev.start]).accelData = [] := by
  refine ⟨rfl, ?_, rfl, rfl⟩
  show [readingOfEvent eventA] = [(⟨1, 2, 3⟩ : Reading)]
  rfl

/-- C5 amended: a start() while a cycle is already armed is accepted by
the code — it resets the buffer again and schedules an additional
collection timer (see the counterexample) — but it never duplicates the
motion listener: in every state reachable from the initial state the
listener is attached at most once, and after any event history ending in
a start() it is attached exactly once. -/
theorem claim5_no_duplicate_listener :
    (∀ evs : List Ev, (runEvs initState evs).listenerCount ≤ 1) ∧
    (∀ evs : List Ev, (runEvs initState (evs ++ [Ev.start])).listenerCount = 1) := by
  constructor
  · intro evs
    exact runEvs_listener_le evs initState (Nat.zero_le 1)
  · intro evs
    rw [runEvs_append_one]
    exact startContinuousLoop_listener_eq_one _
      (runEvs_listener_le evs initState (Nat.zero_le 1))

theorem deliverMotion_of_detached (s : SysState) (hl : s.listenerCount = 0)
    (e : MotionEvent) : deliverMotion e s = s := by
  unfold deliverMotion
  rw [if_pos hl]

theorem stepEv_halted (s : SysState) (hc : s.continueLoop = false)
    (hl : s.listenerCount = 0) (ev : Ev) (hev : ev ≠ Ev.start) :
    (stepEv s ev).continueLoop = false ∧ (stepEv s ev).listenerCount = 0 := by
  cases ev with
  | start => exact absurd rfl hev
  | stop => exact ⟨rfl, rfl⟩
  | motion e =>
    show (deliverMotion e s).continueLoop = false ∧ (deliverMotion e s).listenerCount = 0
    rw [deliverMotion_of_detached s hl e]
    exact ⟨hc, hl⟩
  | timer =>
    show (stopCollectBegin s).continueLoop = false ∧ (stopCollectBegin s).listenerCount = 0
    unfold stopCollectBegin
    split
    · exact ⟨hc, hl⟩
    · exact ⟨hc, rfl⟩
  | inferDone o =>
    show (stopCollectResume o s).continueLoop = false ∧ (stopCollectResume o s).listenerCount = 0
    unfold stopCollectResume
    split
    · exact ⟨hc, hl⟩
    · dsimp only
      split
      · next htrue =>
        rw [show ({ s with inFlight := s.inFlight - 1 } : SysState).continueLoop =
          s.continueLoop from rfl, hc] at htrue
        exact absurd htrue (by simp)
      · exact ⟨hc, hl⟩

theorem runEvs_halted (evs : List Ev) : ∀ s : SysState, Ev.start ∉ evs →
    s.continueLoop = false → s.listenerCount = 0 →
    (runEvs s evs).continueLoop = false ∧ (runEvs s evs).listenerCount = 0 := by
  induction evs with
  | nil => intro s _ hc hl; exact ⟨hc, hl⟩
  | cons ev evs ih =>
    intro s hmem hc hl
    have hev : ev ≠ Ev.start := by
      intro h
      exact hmem (by rw [h]; exact List.mem_cons_self _ _)
    have h1 := stepEv_halted s hc hl ev hev
    exact ih (stepEv s ev) (fun h => hmem (List.mem_cons_of_mem _ h)) h1.1 h1.2

/-- C8: stop() sets the active flag to false and detaches the motion
listener immediately, leaving the buffer, pending timers and any
suspended inference frame untouched; thereafter (absent a new start())
the loop flag stays false and the listener stays detached, so the state
is never Armed again; any reading delivered after the stop leaves the
buffer unchanged; and a suspended inference frame still completes —
it is consumed without interruption and halts without re-arming. -/
theorem claim8_stop_halts :
    (∀ s : SysState,
      (stopContinuousLoop s).continueLoop = false ∧
      (stopContinuousLoop s).listenerCount = 0 ∧
      (stopContinuousLoop s).inFlight = s.inFlight ∧
      (stopContinuousLoop s).pendingTimers = s.pendingTimers ∧
      (stopContinuousLoop s).accelData = s.accelData) ∧
    (∀ (s : SysState) (evs : List Ev), Ev.start ∉ evs →
      (runEvs (stopContinuousLoop s) evs).continueLoop = false ∧
      (runEvs (stopContinuousLoop s) evs).listenerCount = 0) ∧
    (∀ (s : SysState) (evs : List Ev) (e : MotionEvent), Ev.start ∉ evs →
      stepEv (runEvs (stopContinuousLoop s) evs) (Ev.motion e) =
        runEvs (stopContinuousLoop s) evs) ∧
    (∀ (s : SysState) (o : InferOutcome),
      (stopCollectResume o (stopContinuousLoop s)).inFlight = s.inFlight - 1 ∧
      (stopCollectResume o (stopContinuousLoop s)).listenerCount = 0 ∧
      (stopCollectResume o (stopContinuousLoop s)).pendingTimers = s.pendingTimers) := by
  refine ⟨fun s => ⟨rfl, rfl, rfl, rfl, rfl⟩, fun s evs hmem => ?_, fun s evs e hmem => ?_,
    fun s o => ?_⟩
  · exact runEvs_halted evs (stopContinuousLoop s) hmem rfl rfl
  · exact deliverMotion_of_detached _
      (runEvs_halted evs (stopContinuousLoop s) hmem rfl rfl).2 e
  · show (stopCollectResume o (stopContinuousLoop s)).inFlight = s.inFlight - 1 ∧ _
    unfold stopCollectResume
    split
    · next hz =>
      refine ⟨?_, rfl, rfl⟩
      have hz' : s.inFlight = 0 := hz
      show s.inFlight = s.inFlight - 1
      omega
    · dsimp only
      split
      · next htrue =>
        rw [show ({ stopContinuousLoop s with
          inFlight := (stopContinuousLoop s).inFlight - 1 } : SysState).continueLoop =
          false from rfl] at htrue
        exact absurd htrue (by simp)
      · exact ⟨rfl, rfl, rfl⟩

/-- C8 witness: after stop() from the initial state, a timer fire and an
inference completion leave the loop halted and the listener detached. -/
theorem claim8_stop_halts_witness :
    (runEvs (stopContinuousLoop initState) [Ev.timer, Ev.inferDone InferOutcome.ok]).continueLoop
        = false ∧
    (runEvs (stopContinuousLoop initState) [Ev.timer, Ev.inferDone InferOutcome.ok]).listenerCount
        = 0 :=
  claim8_stop_halts.2.1 initState [Ev.timer, Ev.inferDone InferOutcome.ok] (by decide)

/-- C3 counterexample: in the part_000 variant, with the loop active and
one inference in flight, a thrown predict error rejects the promise and
the then-callback that would re-arm is skipped — the listener stays
detached and no timer is scheduled, so cycle k+1 is never armed — while
a successful inference in the same state does re-arm. The claim, which
asserts re-arming for every failure, is therefore false of part_000. -/
theorem claim3_counterexample :
    inferringState.continueLoop = true ∧
    (part000Resume InferOutcome.errThrown inferringState).listenerCount = 0 ∧
    (part000Resume InferOutcome.errThrown inferringState).pendingTimers = 0 ∧
    (part000Resume InferOutcome.ok inferringState).listenerCount = 1 ∧
    (part000Resume InferOutcome.ok inferringState).pendingTimers = 1 := by
  exact ⟨rfl, rfl, rfl, rfl, rfl⟩

/-- C3 amended: in the main.js driver the original claim holds — the
inference step never escapes its caller (a missing model returns early,
a thrown predict error is caught), so for every outcome, when the loop
is active the completing cycle re-attaches the listener and schedules
the next collection timer. In the part_000 variant this holds for a
missing model and for success, but not for a thrown predict error. -/
theorem claim3_failed_inference_rearm :
    (∀ (s : SysState) (o : InferOutcome), s.continueLoop = true → 0 < s.inFlight →
        s.listenerCount = 0 →
      (stopCollectResume o s).listenerCount = 1 ∧
      (stopCollectResume o s).pendingTimers = s.pendingTimers + 1) ∧
    (∀ (s : SysState) (o : InferOutcome), o ≠ InferOutcome.errThrown →
        s.continueLoop = true → 0 < s.inFlight → s.listenerCount = 0 →
      (part000Resume o s).listenerCount = 1 ∧
      (part000Resume o s).pendingTimers = s.pendingTimers + 1) := by
  constructor
  · intro s o hc hf hl
    unfold stopCollectResume
    rw [if_neg (by omega)]
    dsimp only
    rw [if_pos (by exact hc)]
    unfold startCollectingData
    rw [if_neg (by rw [show ({ s with inFlight := s.inFlight - 1 } : SysState).continueLoop
      = s.continueLoop from rfl, hc]; simp)]
    exact ⟨addMotionListener_listenerCount _ (by show s.listenerCount ≤ 1; omega),
      (addMotionListener_pendingTimers _).trans rfl⟩
  · intro s o ho hc hf hl
    unfold part000Resume
    rw [if_neg (by omega)]
    dsimp only
    cases o with
    | errThrown => exact absurd rfl ho
    | notLoaded =>
      rw [if_pos (by exact hc)]
      unfold startCollectingData
      rw [if_neg (by rw [show ({ s with inFlight := s.inFlight - 1 } : SysState).continueLoop
        = s.continueLoop from rfl, hc]; simp)]
      exact ⟨addMotionListener_listenerCount _ (by show s.listenerCount ≤ 1; omega),
      (addMotionListener_pendingTimers _).trans rfl⟩
    | ok =>
      rw [if_pos (by exact hc)]
      unfold startCollectingData
      rw [if_neg (by rw [show ({ s with inFlight := s.inFlight - 1 } : SysState).continueLoop
        = s.continueLoop from rfl, hc]; simp)]
      exact ⟨addMotionListener_listenerCount _ (by show s.listenerCount ≤ 1; omega),
      (addMotionListener_pendingTimers _).trans rfl⟩

/-- C3 witness: in the main.js driver a thrown predict error on an
active in-flight cycle still re-arms — listener re-attached, next timer
scheduled. -/
theorem claim3_failed_inference_rearm_witness :
    (stopCollectResume InferOutcome.errThrown inferringState).listenerCount = 1 ∧
    (stopCollectResume InferOutcome.errThrown inferringState).pendingTimers = 1 :=
  claim3_failed_inference_rearm.1 inferringState InferOutcome.errThrown rfl
    (by norm_num [inferringState]) rfl

/-- C4 counterexample: the part_000 handler appends the destructured
axis values as-is, so an event with an absent x axis puts a reading with
an absent x into the buffer instead of 0; the part_002 handler does the
same. The claim, which asserts every handler defaults absent axes to 0,
is therefore false of part_000 and part_002. -/
theorem claim4_counterexample :
    handleMotionEventRaw absentEvent [] = [⟨none, some 1, some 2⟩] ∧
    ((handleMotionEventRaw absentEvent []).getD 0 ⟨some 0, some 0, some 0⟩).x = none ∧
    handleMotionEventRing absentEvent 7 [] = [⟨none, some 1, some 2, 7⟩] := by
  exact ⟨rfl, rfl, rfl⟩

/-- C4 amended: the main.js handler stores `x || 0` for each axis, so an
absent axis value is stored as 0 and the appended Reading never contains
an absent value; the part_000 (and part_002) handlers instead append the
axis values exactly as delivered. -/
theorem claim4_default_missing_axes :
    (∀ (e : MotionEvent) (buf : List Reading),
      handleMotionEvent e buf = buf ++ [⟨e.x.getD 0, e.y.getD 0, e.z.getD 0⟩]) ∧
    (∀ e : MotionEvent, e.x = none → (readingOfEvent e).x = 0) ∧
    (∀ e : MotionEvent, e.y = none → (readingOfEvent e).y = 0) ∧
    (∀ e : MotionEvent, e.z = none → (readingOfEvent e).z = 0) ∧
    (∀ (e : MotionEvent) (buf : List RawReading),
      handleMotionEventRaw e buf = buf ++ [⟨e.x, e.y, e.z⟩]) := by
  refine ⟨fun e buf => rfl, fun e h => ?_, fun e h => ?_, fun e h => ?_, fun e buf => rfl⟩
  · simp [readingOfEvent, h]
  · simp [readingOfEvent, h]
  · simp [readingOfEvent, h]

/-- C4 witness: the main.js handler stores 0 for the absent x axis of
the concrete event. -/
theorem claim4_default_missing_axes_witness :
    (readingOfEvent absentEvent).x = 0 :=
  claim4_default_missing_axes.2.1 absentEvent rfl

/-- C6 counterexample: the part_002 handler is not append-only and has a
capacity limit — on a buffer already holding MAX_SAMPLES = 100 entries,
handling one more event leaves the length at 100 (not 101) and removes
the oldest entry (the marked head is gone). The claim, which asserts
unconditional append with no capacity limit for the cited handlers, is
therefore false of part_002. -/
theorem claim6_counterexample :
    fullRingBuf.length = 100 ∧
    (handleMotionEventRing eventA 3 fullRingBuf).length = 100 ∧
    (handleMotionEventRing eventA 3 fullRingBuf).getD 0 ⟨none, none, none, 0⟩ =
      ⟨some 0, some 0, some 0, 0⟩ ∧
    fullRingBuf.getD 0 ⟨none, none, none, 0⟩ = ⟨some 9, some 9, some 9, 0⟩ ∧
    (⟨some 0, some 0, some 0, 0⟩ : TimedReading) ≠ ⟨some 9, some 9, some 9, 0⟩ := by
  exact ⟨rfl, rfl, rfl, rfl, by decide⟩

/-- C6 amended: the main.js and part_000 handlers are append-only with
no capacity limit — each delivered reading is appended at the end, the
length grows by exactly one and all prior entries are unchanged; the
part_002 handler behaves that way only below MAX_SAMPLES = 100 entries,
and once the buffer is full each append is followed by dropping the
oldest entry, keeping the length constant. -/
theorem claim6_append_only :
    (∀ (e : MotionEvent) (buf : List Reading),
      (handleMotionEvent e buf).length = buf.length + 1 ∧
      (handleMotionEvent e buf).take buf.length = buf) ∧
    (∀ (e : MotionEvent) (buf : List RawReading),
      (handleMotionEventRaw e buf).length = buf.length + 1 ∧
      (handleMotionEventRaw e buf).take buf.length = buf) ∧
    (∀ (e : MotionEvent) (t : ℚ) (buf : List TimedReading), buf.length < MAX_SAMPLES →
      handleMotionEventRing e t buf = buf ++ [⟨e.x, e.y, e.z, t⟩]) ∧
    (∀ (e : MotionEvent) (t : ℚ) (buf : List TimedReading), MAX_SAMPLES ≤ buf.length →
      (handleMotionEventRing e t buf).length = buf.length) := by
  refine ⟨fun e buf => ⟨?_, ?_⟩, fun e buf => ⟨?_, ?_⟩, fun e t buf h => ?_,
    fun e t buf h => ?_⟩
  · simp [handleMotionEvent]
  · exact List.take_left _ _
  · simp [handleMotionEventRaw]
  · exact List.take_left _ _
  · unfold handleMotionEventRing
    dsimp only
    rw [if_neg (by simp only [List.length_append, List.length_singleton]; omega)]
  · unfold handleMotionEventRing
    dsimp only
    rw [if_pos (by simp only [List.length_append, List.length_singleton]; omega)]
    simp only [List.length_tail, List.length_append, List.length_singleton]
    omega

/-- C6 witness: below capacity the part_002 handler appends at the end. -/
theorem claim6_append_only_witness :
    handleMotionEventRing eventA 0 [] = [⟨some 1, some 2, some 3, 0⟩] :=
  claim6_append_only.2.2.1 eventA 0 [] (by decide)
